import Mathlib

/-!
Verification of the mech-glue name-import core of `lib/gssapi/mech/gss_import_name.c`
(Heimdal).  The file embeds the two C functions of that translation unit:

* `_gss_import_export_name` (lines 31-170): the exported-name token parser plus the
  single-mechanism dispatch, and
* `gss_import_name` (lines 198-323), of which the non-exported ("generic") path
  (lines 234-322) is embedded as `gss_import_name_generic`.

Machine integers are modelled as `Nat` with explicit wrap-around (`% 2 ^ 64` for the
C `size_t` variables `t`/`len`, `% 2 ^ 32` for the `OM_uint32` field
`mech_oid.length`).  Every C buffer read `p[i]` becomes a `List.getElem?` access; a
read the C code performs at an offset past the end of the buffer (undefined
behaviour in C) is modelled as the distinguished outcome `oobRead`.
-/

namespace GssImportName

/-- Outcome of parsing an exported-name token (lines 31-141 of the source).
`oobRead` marks executions in which the C code dereferences a byte past the end of
the supplied buffer (undefined behaviour); `badName` is `GSS_S_BAD_NAME`;
`ok composite mechOid payload` is a successful parse, with the mechanism-OID
content octets and (for non-composite tokens) the name payload that follows the
32-bit name-length field (for composite tokens the opaque remainder after the
OID). -/
inductive PResult where
  | oobRead
  | badName
  | ok (composite : Bool) (mechOid : List Nat) (payload : List Nat)
deriving DecidableEq

/-- One C `size_t` decrement: `x--` on a 64-bit unsigned value (wraps at zero). -/
def stDec (a : Nat) : Nat := (a + (2 ^ 64 - 1)) % 2 ^ 64

/-- The continuation-byte loop of lines 112-117: `while (digits--)` reads one byte
per iteration with **no** bounds check, accumulating `mech_oid.length`
(`OM_uint32`, hence `% 2 ^ 32`) and decrementing the running budget `t`
(`size_t`).  Returns `none` when a read falls past the end of the buffer
(undefined behaviour in the C), otherwise the position after the loop, the
accumulated OID content length, and the remaining budget. -/
def oidLenBytes (r : List Nat) : Nat → Nat → Nat → Nat → Option (Nat × Nat × Nat)
  | pos, 0, acc, t => some (pos, acc, t)
  | pos, d + 1, acc, t =>
    match r[pos]? with
    | none => none
    | some b => oidLenBytes r (pos + 1) d ((acc <<< 8 ||| b) % 2 ^ 32) (stDec t)

/-- Lines 124-141 of the source, after the DER OID length has been decoded:
`r` is the buffer suffix starting right after the 16-bit mech-field length
(the C pointer `p` was at `r`'s head when `t` was loaded), `pos` the current
cursor inside `r`, `t` the remaining `size_t` budget, `oidLen` the decoded
`mech_oid.length`.  Checks `mech_oid.length != t` (line 124); for composite
tokens no further check is made (lines 129/141); for non-composite tokens it
checks `len < t + 4` (line 130), reads the 4-byte big-endian name length
(line 135) and requires it to equal the remaining byte count exactly
(line 139). -/
def finishParse (r : List Nat) (pos t oidLen : Nat) (composite : Bool) : PResult :=
  if oidLen ≠ t then .badName
  else if composite then .ok true ((r.drop pos).take t) (r.drop (pos + t))
  else if r.length - pos < t + 4 then .badName
  else
    match r[pos + t]?, r[pos + t + 1]?, r[pos + t + 2]?, r[pos + t + 3]? with
    | some n0, some n1, some n2, some n3 =>
      if r.length - (pos + t + 4) ≠ (n0 <<< 24) ||| (n1 <<< 16) ||| (n2 <<< 8) ||| n3
      then .badName
      else .ok false ((r.drop pos).take t) (r.drop (pos + t + 4))
    | _, _, _, _ => .oobRead

/-- The token-parsing part of `_gss_import_export_name` (lines 50-141).
The two explicit `len < 2` checks (lines 53 and 91) appear as the two-element
list patterns; the reads of the ASN.1 OID tag byte (line 101), of the DER
length byte (line 106) and of every continuation byte (line 113) have **no**
preceding bounds check in the C and are therefore `getElem?` reads mapping to
`oobRead` when past the end.  Note line 107 stores the *entire* length byte in
`digits` (no `& 0x7f` mask).  Positions are relative to the suffix after the
four header bytes, mirroring the C pointer `p`. -/
def parseExportedName (buf : List Nat) : PResult :=
  match buf with
  | b0 :: b1 :: r1 =>
    if b0 ≠ 4 then .badName
    else if ¬ (b1 = 1 ∨ b1 = 2) then .badName
    else
      let composite := b1 == 2
      match r1 with
      | t0 :: t1 :: r2 =>
        let t := (t0 <<< 8) + t1
        match r2[0]? with
        | none => .oobRead
        | some tag =>
          if tag ≠ 6 then .badName
          else
            match r2[1]? with
            | none => .oobRead
            | some lb =>
              if lb &&& 0x80 ≠ 0 then
                match oidLenBytes r2 2 lb 0 (stDec (stDec t)) with
                | none => .oobRead
                | some (pos, oidLen, tv) => finishParse r2 pos tv oidLen composite
              else
                finishParse r2 2 (stDec (stDec t)) lb composite
      | _ => .badName
  | _ => .badName

/-- GSS-API major status codes, restricted to the values this translation unit can
produce.  `mechError` stands for the (arbitrary, non-`GSS_S_COMPLETE`) major status
a mechanism's own import returned and that line 154 propagates verbatim;
`oobRead` marks executions whose behaviour is undefined in C (see `PResult`). -/
inductive Status where
  | complete
  | badName
  | badMech
  | nameNotMN
  | failure
  | mechError
  | oobRead
deriving DecidableEq

/-- A mechanism OID and a name-type OID are byte sequences compared by exact
byte equality. -/
abbrev OID := List Nat

/-- One registered mechanism (`struct _gss_mech_switch` together with its
`gssapi_mech_interface`), reduced to the capabilities this translation unit
touches.  `importName` is the mechanism's `gm_import_name` operation as an
oracle from (value bytes, name type) to `some handle` on success or `none` on
any mechanism-reported failure; `hasImportName` records whether the
`gm_import_name` pointer is non-null (checked only on the exported-name path,
line 144); `useMgName` is the `GM_USE_MG_NAME` flag (line 265); `nameTypes` is
the `gm_name_types` set (line 270); `mnAllocOk` is an oracle for the
`malloc(sizeof(struct _gss_mechanism_name))` at line 276. -/
structure Mech where
  oid : OID
  useMgName : Bool
  nameTypes : List OID
  hasImportName : Bool
  importName : List Nat → Option OID → Option Nat
  mnAllocOk : Bool

/-- `__gss_get_mechanism` (line 143): look the parsed OID up in the registry,
returning the first registered mechanism whose OID matches, with its
registration index. -/
def __gss_get_mechanism : List Mech → Nat → OID → Option (Nat × Mech)
  | [], _, _ => none
  | m :: rest, i, o => if m.oid = o then some (i, m) else __gss_get_mechanism rest (i + 1) o

/-- Environment of the exported-name path: the registry (`_gss_mechs`, in
registration order) and an oracle for the `_gss_create_name` allocation at
line 160. -/
structure XEnv where
  mechs : List Mech
  createNameOk : Bool

/-- Observable outcome of `_gss_import_export_name`: the returned major status;
the value stored in `*output_name` (`none` models the null name set at line 48,
`some (i, h)` the MN wrapping mechanism `i`'s handle `h` built at line 160);
the arguments of the `gm_import_name` invocation at lines 150-151, if it
happened (registry index, the buffer passed, the name type passed); and the
`gm_release_name` invocations performed (line 162). -/
structure XOut where
  status : Status
  output : Option (Nat × Nat)
  importCall : Option (Nat × List Nat × Option OID)
  released : List (Nat × Nat)
deriving DecidableEq

/-- `_gss_import_export_name` (lines 31-170): parse the token, resolve the
mechanism, and have it import the **original, full input buffer** (line 150
passes `input_name_buffer`, not the parsed payload) with the caller's
`name_type`.  Lookup failure or a missing `gm_import_name` capability is
`GSS_S_BAD_MECH` (lines 143-145); a failing mechanism import is propagated
(lines 152-155); a failing `_gss_create_name` releases the just-imported
mechanism name and returns `GSS_S_FAILURE` (lines 161-164). -/
def _gss_import_export_name (env : XEnv) (buf : List Nat) (nameType : Option OID) : XOut :=
  match parseExportedName buf with
  | .oobRead => ⟨.oobRead, none, none, []⟩
  | .badName => ⟨.badName, none, none, []⟩
  | .ok _ mechOid _ =>
    match __gss_get_mechanism env.mechs 0 mechOid with
    | none => ⟨.badMech, none, none, []⟩
    | some (i, m) =>
      if ¬ m.hasImportName then ⟨.badMech, none, none, []⟩
      else
        match m.importName buf nameType with
        | none => ⟨.mechError, none, some (i, buf, nameType), []⟩
        | some h =>
          if env.createNameOk then ⟨.complete, some (i, h), some (i, buf, nameType), []⟩
          else ⟨.failure, none, some (i, buf, nameType), [(i, h)]⟩

/-- The aggregate `struct _gss_name` built by the generic path: the interned
type OID (`gn_type`), the deep-copied value buffer (`gn_value`, `none` while
not yet copied), and the ordered `gn_mn` list of (registry index, mechanism
handle) pairs, in insertion order. -/
structure GName where
  typ : Option OID
  value : Option (List Nat)
  mns : List (Nat × Nat)
deriving DecidableEq

/-- Result of the generic path: either the aggregate name handed to the caller
or an error status (in which case `*output_name` keeps the null name set at
line 216). -/
inductive GResult where
  | ok (name : GName)
  | err (s : Status)
deriving DecidableEq

/-- Generic-path outcome together with a resource ledger: `alloc` counts every
heap acquisition performed (name struct, interned type, copied value buffer,
each `_gss_mechanism_name` node, each mechanism-owned handle), `freed` counts
every release.  `alloc = freed` on an error outcome means no resources remain
allocated. -/
structure GOut where
  result : GResult
  alloc : Nat
  freed : Nat
deriving DecidableEq

/-- Modelled from the spec: the `gss_release_name` collaborator is not under
`src/` (only its caller is); section 4.4 of the spec describes it as releasing,
for a possibly partially constructed name, each contained mechanism name via
its owning mechanism and freeing its list node, then the owned value buffer and
interned type when present, then the name structure itself.  This function
gives the number of frees that teardown performs. -/
def releaseCost (n : GName) : Nat :=
  2 * n.mns.length + (if n.value.isSome then 1 else 0) + (if n.typ.isSome then 1 else 0) + 1

/-- A mechanism is tried by the generic loop (lines 262-274) unless it is
flagged `GM_USE_MG_NAME` (line 265, `continue`) or a name type was supplied and
is not a member of the mechanism's `gm_name_types` set (lines 268-274,
`continue`; an error from `gss_test_oid_set_member` skips the mechanism exactly
like a non-member). -/
def eligibleMech (nameType : Option OID) (m : Mech) : Bool :=
  !m.useMgName &&
    (match nameType with
     | none => true
     | some t => m.nameTypes.contains t)

/-- The `HEIM_TAILQ_FOREACH` loop of lines 262-303, walking the remaining
mechanisms with their registration index `i` and threading the name under
construction and the alloc/free counters.  Per eligible mechanism: the
`malloc` of the list node (line 276; failure aborts the whole call with
`GSS_S_FAILURE`, lines 277-281), then the mechanism import (lines 283-286);
on import failure the node is freed and the loop continues (lines 287-298);
on success the node is appended to `gn_mn` (lines 300-302).  Returns
`some status` when the loop aborted (`goto out`), else `none`. -/
def importLoop (buf : List Nat) (nameType : Option OID) :
    List Mech → Nat → GName → Nat → Nat → Option Status × GName × Nat × Nat
  | [], _, name, a, f => (none, name, a, f)
  | m :: rest, i, name, a, f =>
    if ¬ eligibleMech nameType m then importLoop buf nameType rest (i + 1) name a f
    else if ¬ m.mnAllocOk then (some .failure, name, a, f)
    else
      match m.importName buf nameType with
      | none => importLoop buf nameType rest (i + 1) name (a + 1) (f + 1)
      | some h =>
        importLoop buf nameType rest (i + 1)
          { name with mns := name.mns ++ [(i, h)] } (a + 2) f

/-- Environment of the generic path: the registry plus allocation oracles for
`_gss_create_name(NULL, NULL)` (line 235), `_gss_intern_oid` (line 242) and
`_gss_copy_buffer` (line 252). -/
structure GEnv where
  mechs : List Mech
  createNameOk : Bool
  internOk : Bool
  copyOk : Bool

/-- The non-exported path of `gss_import_name` (lines 234-322): allocate the
empty aggregate name (line 235), intern the supplied type OID into it
(lines 241-250; failure releases the name and returns `GSS_S_FAILURE`),
deep-copy the value buffer (lines 252-255; failure goes to `out`), run the
mechanism loop, and fail with `GSS_S_NAME_NOT_MN` releasing everything when
the resulting `gn_mn` list is empty (lines 309-314); every `goto out` path
releases the partially built name via `gss_release_name` (lines 319-322).
The entry guards of lines 211-214 (null argument checks) and the
exported-name dispatch of lines 227-231 are outside this function. -/
def gss_import_name_generic (env : GEnv) (buf : List Nat) (nameType : Option OID) : GOut :=
  if ¬ env.createNameOk then ⟨.err .failure, 0, 0⟩
  else if nameType.isSome ∧ ¬ env.internOk then
    ⟨.err .failure, 1, releaseCost ⟨none, none, []⟩⟩
  else
    let a0 : Nat := if nameType.isSome then 2 else 1
    if ¬ env.copyOk then ⟨.err .failure, a0, releaseCost ⟨nameType, none, []⟩⟩
    else
      match importLoop buf nameType env.mechs 0 ⟨nameType, some buf, []⟩ (a0 + 1) 0 with
      | (some s, nameK, a, f) => ⟨.err s, a, f + releaseCost nameK⟩
      | (none, nameK, a, f) =>
        if nameK.mns.isEmpty then ⟨.err .nameNotMN, a, f + releaseCost nameK⟩
        else ⟨.ok nameK, a, f⟩

/-- Specification-side recursion: the (registry index, handle) pairs the loop of
lines 262-303 is expected to append, i.e. the eligible mechanisms whose import
succeeds, in registration order, starting at registration index `i`. -/
def loopSuccesses (buf : List Nat) (nameType : Option OID) : List Mech → Nat → List (Nat × Nat)
  | [], _ => []
  | m :: rest, i =>
    if eligibleMech nameType m then
      match m.importName buf nameType with
      | some h => (i, h) :: loopSuccesses buf nameType rest (i + 1)
      | none => loopSuccesses buf nameType rest (i + 1)
    else loopSuccesses buf nameType rest (i + 1)

/-- Number of mechanisms the loop tries (eligible ones, see `eligibleMech`). -/
def eligCount (nameType : Option OID) : List Mech → Nat
  | [] => 0
  | m :: rest => (if eligibleMech nameType m then 1 else 0) + eligCount nameType rest

/-- Number of eligible mechanisms whose import fails. -/
def failCount (buf : List Nat) (nameType : Option OID) : List Mech → Nat
  | [] => 0
  | m :: rest =>
    (if eligibleMech nameType m ∧ (m.importName buf nameType).isNone then 1 else 0) +
      failCount buf nameType rest

lemma loopSuccesses_length_add_failCount (buf : List Nat) (nameType : Option OID) :
    ∀ (ms : List Mech) (i : Nat),
      (loopSuccesses buf nameType ms i).length + failCount buf nameType ms =
        eligCount nameType ms := by
  intro ms
  induction ms with
  | nil => intro i; simp [loopSuccesses, failCount, eligCount]
  | cons m rest ih =>
    intro i
    have hrec := ih (i + 1)
    cases he : eligibleMech nameType m with
    | true =>
      cases him : m.importName buf nameType with
      | none => simp [loopSuccesses, failCount, eligCount, he, him]; omega
      | some hdl => simp [loopSuccesses, failCount, eligCount, he, him]; omega
    | false => simp [loopSuccesses, failCount, eligCount, he]; omega

lemma loopSuccesses_eq_nil (buf : List Nat) (nameType : Option OID) :
    ∀ (ms : List Mech) (i : Nat),
      (∀ m ∈ ms, eligibleMech nameType m = true → m.importName buf nameType = none) →
      loopSuccesses buf nameType ms i = [] := by
  intro ms
  induction ms with
  | nil => intro i _; simp [loopSuccesses]
  | cons m rest ih =>
    intro i h
    have hrest : ∀ m' ∈ rest, eligibleMech nameType m' = true →
        m'.importName buf nameType = none :=
      fun m' hm' => h m' (List.mem_cons_of_mem _ hm')
    cases he : eligibleMech nameType m with
    | true =>
      simp only [loopSuccesses, he, if_true, h m (List.mem_cons_self _ _) he]
      exact ih (i + 1) hrest
    | false =>
      simp only [loopSuccesses, he, Bool.false_eq_true, if_false]
      exact ih (i + 1) hrest

/-- Characterization of the mechanism loop when no list-node allocation fails:
it finishes the walk (no `goto out`), appends exactly the eligible-and-successful
mechanisms in registration order, allocates one node per eligible mechanism plus
one handle per success, and frees one node per eligible failure. -/
lemma importLoop_eq (buf : List Nat) (nameType : Option OID) :
    ∀ (ms : List Mech) (i : Nat) (name : GName) (a f : Nat),
      (∀ m ∈ ms, eligibleMech nameType m = true → m.mnAllocOk = true) →
      importLoop buf nameType ms i name a f =
        (none, ⟨name.typ, name.value, name.mns ++ loopSuccesses buf nameType ms i⟩,
          a + eligCount nameType ms + (loopSuccesses buf nameType ms i).length,
          f + failCount buf nameType ms) := by
  intro ms
  induction ms with
  | nil => intro i name a f _; simp [importLoop, loopSuccesses, eligCount, failCount]
  | cons m rest ih =>
    intro i name a f h
    have hrest : ∀ m' ∈ rest, eligibleMech nameType m' = true → m'.mnAllocOk = true :=
      fun m' hm' => h m' (List.mem_cons_of_mem _ hm')
    cases he : eligibleMech nameType m with
    | true =>
      have ha : m.mnAllocOk = true := h m (List.mem_cons_self _ _) he
      cases him : m.importName buf nameType with
      | none =>
        rw [importLoop, if_neg (by simp [he]), if_neg (by simp [ha])]
        simp only [him]
        rw [ih (i + 1) name (a + 1) (f + 1) hrest]
        simp [loopSuccesses, eligCount, failCount, he, him, Prod.ext_iff]
        omega
      | some hdl =>
        rw [importLoop, if_neg (by simp [he]), if_neg (by simp [ha])]
        simp only [him]
        rw [ih (i + 1) ⟨name.typ, name.value, name.mns ++ [(i, hdl)]⟩ (a + 2) f hrest]
        simp [loopSuccesses, eligCount, failCount, he, him, Prod.ext_iff]
        omega
    | false =>
      rw [importLoop, if_pos (by simp [he]), ih (i + 1) name a f hrest]
      simp [loopSuccesses, eligCount, failCount, he]

/-- C3: on the generic (non-exported) path with no allocation failures, a single
mechanism's import failure never aborts the overall import: when exactly one of
the `N ≥ 2` eligible mechanisms fails, the call succeeds and the returned
aggregate name carries exactly the `N - 1` successful mechanism names, in
registration order (the order-preserving `loopSuccesses` list). -/
theorem generic_import_single_failure_tolerated
    (env : GEnv) (buf : List Nat) (nameType : Option OID)
    (hc : env.createNameOk = true) (hi : env.internOk = true) (hcp : env.copyOk = true)
    (halloc : ∀ m ∈ env.mechs, eligibleMech nameType m = true → m.mnAllocOk = true)
    (hone : failCount buf nameType env.mechs = 1)
    (hN : 2 ≤ eligCount nameType env.mechs) :
    (gss_import_name_generic env buf nameType).result =
        .ok ⟨nameType, some buf, loopSuccesses buf nameType env.mechs 0⟩ ∧
      (loopSuccesses buf nameType env.mechs 0).length + 1 =
        eligCount nameType env.mechs := by
  have hsum := loopSuccesses_length_add_failCount buf nameType env.mechs 0
  have hlen : (loopSuccesses buf nameType env.mechs 0).length + 1 =
      eligCount nameType env.mechs := by omega
  refine ⟨?_, hlen⟩
  have hne : (loopSuccesses buf nameType env.mechs 0).isEmpty = false := by
    cases hl : loopSuccesses buf nameType env.mechs 0 with
    | nil => rw [hl] at hsum; simp at hsum; omega
    | cons x xs => simp
  simp only [gss_import_name_generic, hc, hi, hcp, not_true, and_false, if_false,
    Bool.true_eq_false, ite_false, not_false_iff, ite_true]
  rw [importLoop_eq buf nameType env.mechs 0 ⟨nameType, some buf, []⟩ _ _ halloc]
  simp [hne]

/-- C4: on the generic (non-exported) path with no allocation failures, when every
eligible mechanism's import fails the call fails with `GSS_S_NAME_NOT_MN`, no
aggregate name is returned (the output slot keeps the null name), and the
partially built name — its copied value buffer and interned type included — is
released, leaving the allocation and free counts equal. -/
theorem generic_import_all_fail_name_not_mn_no_leak
    (env : GEnv) (buf : List Nat) (nameType : Option OID)
    (hc : env.createNameOk = true) (hi : env.internOk = true) (hcp : env.copyOk = true)
    (halloc : ∀ m ∈ env.mechs, eligibleMech nameType m = true → m.mnAllocOk = true)
    (hfail : ∀ m ∈ env.mechs, eligibleMech nameType m = true →
      m.importName buf nameType = none) :
    (gss_import_name_generic env buf nameType).result = .err .nameNotMN ∧
      (gss_import_name_generic env buf nameType).alloc =
        (gss_import_name_generic env buf nameType).freed := by
  have hnil := loopSuccesses_eq_nil buf nameType env.mechs 0 hfail
  have hsum := loopSuccesses_length_add_failCount buf nameType env.mechs 0
  rw [hnil] at hsum
  simp only [List.length_nil, Nat.zero_add] at hsum
  simp only [gss_import_name_generic, hc, hi, hcp, not_true, and_false, if_false,
    Bool.true_eq_false, ite_false, not_false_iff, ite_true]
  rw [importLoop_eq buf nameType env.mechs 0 ⟨nameType, some buf, []⟩ _ _ halloc, hnil]
  cases nameType <;> simp [releaseCost] <;> omega

lemma stDec_stDec_add_two (n : Nat) (h : n + 2 < 2 ^ 64) : stDec (stDec (n + 2)) = n := by
  have e1 : stDec (n + 2) = n + 1 := by
    rw [stDec]
    have e : n + 2 + (2 ^ 64 - 1) = n + 1 + 2 ^ 64 := by omega
    rw [e, Nat.add_mod_right, Nat.mod_eq_of_lt (by omega)]
  rw [e1, stDec]
  have e : n + 1 + (2 ^ 64 - 1) = n + 2 ^ 64 := by omega
  rw [e, Nat.add_mod_right, Nat.mod_eq_of_lt (by omega)]

lemma land_128_eq_zero {n : Nat} (h : n < 128) : n &&& 128 = 0 := by
  have h7 : n < 2 ^ 7 := h
  have h128 : (128 : Nat) = 2 ^ 7 := by norm_num
  rw [h128, Nat.and_two_pow, Nat.testBit_eq_false_of_lt h7]
  simp

/-- How the parser evaluates on a token whose header and mechanism-OID field are
well formed with a short-form DER length: the front of the parse is fully
determined and control reaches `finishParse` right after the OID length byte. -/
lemma parse_short_form (b1 : Nat) (oid rest : List Nat) (hb : b1 = 1 ∨ b1 = 2)
    (h : oid.length < 128) :
    parseExportedName (4 :: b1 :: 0 :: (oid.length + 2) :: 6 :: oid.length :: (oid ++ rest)) =
      finishParse (6 :: oid.length :: (oid ++ rest)) 2 oid.length oid.length (b1 == 2) := by
  simp only [parseExportedName, List.getElem?_cons_zero, List.getElem?_cons_succ]
  rw [if_neg (by omega), if_neg (not_not_intro hb), if_neg (by omega),
    if_neg (by simp [land_128_eq_zero h])]
  have ht : stDec (stDec (0 <<< 8 + (oid.length + 2))) = oid.length := by
    rw [Nat.zero_shiftLeft, Nat.zero_add, stDec_stDec_add_two _ (by omega)]
  rw [ht]

/-- C5: for every composite token (first two bytes 04 02) whose mechanism-OID
field parses correctly — here with a short-form DER length — the parser applies
no name-length enforcement after the mechanism OID: whatever the remainder
`suffix` is (in particular when it is inconsistent with any trailing name-length
field), the token is accepted and the remainder is returned as an opaque
suffix. -/
theorem composite_no_length_enforcement (oid suffix : List Nat) (h : oid.length < 128) :
    parseExportedName (4 :: 2 :: 0 :: (oid.length + 2) :: 6 :: oid.length :: (oid ++ suffix)) =
      .ok true oid suffix := by
  rw [parse_short_form 2 oid suffix (Or.inr rfl) h, finishParse]
  rw [if_neg (by omega)]
  simp only [ite_true, beq_self_eq_true, if_true]
  have hdrop2 : (6 :: oid.length :: (oid ++ suffix)).drop 2 = oid ++ suffix := rfl
  have hdropall : (6 :: oid.length :: (oid ++ suffix)).drop (2 + oid.length) = suffix := by
    have : 2 + oid.length = oid.length + 2 := by omega
    rw [this]
    show (oid ++ suffix).drop oid.length = suffix
    exact List.drop_left _ _
  rw [hdrop2, hdropall, List.take_left]

/-- C6: for every non-composite token (first two bytes 04 01) whose
mechanism-OID field parses correctly — here with a short-form DER length — the
parser requires at least `oid_length + 4` further bytes (first conjunct: fewer
than 4 bytes after the OID is `GSS_S_BAD_NAME`), reads the next 4 bytes as a
big-endian 32-bit name length, and succeeds exactly when the byte count
remaining after those 4 bytes equals that length, failing with
`GSS_S_BAD_NAME` otherwise — no trailing or missing bytes permitted. -/
theorem noncomposite_strict_length
    (oid : List Nat) (h : oid.length < 128) :
    (∀ short : List Nat, short.length < 4 →
      parseExportedName (4 :: 1 :: 0 :: (oid.length + 2) :: 6 :: oid.length ::
        (oid ++ short)) = .badName) ∧
    (∀ (a b c d : Nat) (payload : List Nat),
      parseExportedName (4 :: 1 :: 0 :: (oid.length + 2) :: 6 :: oid.length ::
        (oid ++ (a :: b :: c :: d :: payload))) =
        if payload.length = (a <<< 24) ||| (b <<< 16) ||| (c <<< 8) ||| d
        then .ok false oid payload
        else .badName) := by
  have hread : ∀ (V : List Nat) (j k : Nat), j = 2 + oid.length + k →
      (6 :: oid.length :: (oid ++ V))[j]? = V[k]? := by
    intro V j k hj
    subst hj
    rw [show 2 + oid.length + k = oid.length + k + 1 + 1 by omega,
      List.getElem?_cons_succ, List.getElem?_cons_succ,
      List.getElem?_append_right (by omega)]
    congr 1
    omega
  constructor
  · intro short hshort
    rw [parse_short_form 1 oid short (Or.inl rfl) h, finishParse]
    rw [if_neg (by omega), if_neg (by simp), if_pos (by simp; omega)]
  · intro a b c d payload
    rw [parse_short_form 1 oid _ (Or.inl rfl) h, finishParse]
    rw [if_neg (by omega), if_neg (by simp), if_neg (by simp)]
    rw [hread _ _ 0 (by omega), hread _ _ 1 (by omega), hread _ _ 2 (by omega),
      hread _ _ 3 (by omega)]
    simp only [List.getElem?_cons_zero, List.getElem?_cons_succ]
    have hrem : (6 :: oid.length :: (oid ++ (a :: b :: c :: d :: payload))).length -
        (2 + oid.length + 4) = payload.length := by
      simp
      omega
    have hdrop : (6 :: oid.length :: (oid ++ (a :: b :: c :: d :: payload))).drop
        (2 + oid.length + 4) = payload := by
      rw [show 2 + oid.length + 4 = oid.length + 4 + 1 + 1 by omega]
      show (oid ++ (a :: b :: c :: d :: payload)).drop (oid.length + 4) = payload
      rw [← List.drop_drop, List.drop_left]
      rfl
    have htake : ((6 :: oid.length :: (oid ++ (a :: b :: c :: d :: payload))).drop 2).take
        oid.length = oid := by
      rw [show (6 :: oid.length :: (oid ++ (a :: b :: c :: d :: payload))).drop 2 =
        oid ++ (a :: b :: c :: d :: payload) from rfl, List.take_left]
    rw [hrem, hdrop, htake]
    by_cases hn : payload.length = (a <<< 24) ||| (b <<< 16) ||| (c <<< 8) ||| d
    · rw [if_neg (not_not_intro hn), if_pos hn]
    · rw [if_pos hn, if_neg hn]

/-- C7: on the exported-name path, whenever the token parses and the mechanism
descriptor resolves with an import-name capability, the mechanism's import
operation is invoked with the original, full, unparsed token buffer (not the
parser's extracted payload) together with the caller's name-type OID. -/
theorem export_import_gets_original_buffer
    (env : XEnv) (buf : List Nat) (nameType : Option OID)
    (c : Bool) (oid payload : List Nat) (i : Nat) (m : Mech)
    (hp : parseExportedName buf = .ok c oid payload)
    (hm : __gss_get_mechanism env.mechs 0 oid = some (i, m))
    (hcap : m.hasImportName = true) :
    (_gss_import_export_name env buf nameType).importCall = some (i, buf, nameType) := by
  simp only [_gss_import_export_name, hp, hm, hcap, not_true, if_false]
  cases m.importName buf nameType with
  | none => rfl
  | some h => cases env.createNameOk <;> simp

/-- C8: on the exported-name path, once the token parses successfully the call
returns `GSS_S_BAD_MECH` exactly when the parsed mechanism OID is not in the
registry, or it is but the registered mechanism has no import-name
capability. -/
theorem export_bad_mech_iff
    (env : XEnv) (buf : List Nat) (nameType : Option OID)
    (c : Bool) (oid payload : List Nat)
    (hp : parseExportedName buf = .ok c oid payload) :
    (_gss_import_export_name env buf nameType).status = .badMech ↔
      (__gss_get_mechanism env.mechs 0 oid = none ∨
        ∃ i m, __gss_get_mechanism env.mechs 0 oid = some (i, m) ∧
          m.hasImportName = false) := by
  cases hm : __gss_get_mechanism env.mechs 0 oid with
  | none => simp [_gss_import_export_name, hp, hm]
  | some im =>
    obtain ⟨i, m⟩ := im
    simp only [_gss_import_export_name, hp, hm]
    cases hcap : m.hasImportName with
    | false =>
      rw [if_pos (by simp [hcap])]
      constructor
      · intro _
        exact Or.inr ⟨i, m, rfl, hcap⟩
      · intro _
        rfl
    | true =>
      have hno : ¬ (some (i, m) = none ∨
          ∃ i0 m0, some (i, m) = some (i0, m0) ∧ m0.hasImportName = false) := by
        rintro (hx | ⟨i0, m0, hx, hcap0⟩)
        · exact Option.noConfusion hx
        · rw [Option.some.injEq, Prod.mk.injEq] at hx
          rw [← hx.2, hcap] at hcap0
          exact Bool.noConfusion hcap0
      rw [if_neg (by simp [hcap])]
      cases m.importName buf nameType with
      | none => exact iff_of_false (by simp) hno
      | some h =>
        cases env.createNameOk with
        | false => exact iff_of_false (by simp) hno
        | true => exact iff_of_false (by simp) hno

/-- C10: on the exported-name path, when the mechanism has imported the name
successfully but the allocation of the wrapping name object fails, the
mechanism's release-name operation is invoked on the just-imported mechanism
name (so it is not leaked), the call returns `GSS_S_FAILURE`, and the output
slot keeps the null name set at entry. -/
theorem export_create_name_failure_releases
    (env : XEnv) (buf : List Nat) (nameType : Option OID)
    (c : Bool) (oid payload : List Nat) (i : Nat) (m : Mech) (h : Nat)
    (hp : parseExportedName buf = .ok c oid payload)
    (hm : __gss_get_mechanism env.mechs 0 oid = some (i, m))
    (hcap : m.hasImportName = true)
    (him : m.importName buf nameType = some h)
    (halloc : env.createNameOk = false) :
    _gss_import_export_name env buf nameType =
      ⟨.failure, none, some (i, buf, nameType), [(i, h)]⟩ := by
  simp [_gss_import_export_name, hp, hm, hcap, him, halloc]

/-- C1 (refuting evidence): the parser does not bounds-check the read of the
ASN.1 OID tag byte.  On the 4-byte buffer 04 01 00 00 every explicit check of
the C code passes, yet line 101 reads `p[0]` at offset 4 — one byte past the
end of the buffer — instead of failing with `GSS_S_BAD_NAME`. -/
theorem oid_tag_read_out_of_bounds :
    parseExportedName [4, 1, 0, 0] = .oobRead := by decide

/-- C2 (refuting evidence): line 107 takes the whole DER length byte 0x81 = 129
as the continuation-byte count (the `& 0x7f` mask is missing), so on this
well-formed token — whose single continuation byte encodes OID content length
2, OID 0x2A 0x03 and payload 0x61 — the code walks 129 continuation bytes and
reads past the 14-byte buffer instead of decoding length 2. -/
theorem der_long_form_reads_out_of_bounds :
    parseExportedName [4, 1, 0, 5, 6, 0x81, 2, 0x2A, 3, 0, 0, 0, 1, 0x61] = .oobRead := by
  decide

/-- C9: the concrete 22-byte example token parses as a non-composite name with
mechanism OID 1.2.840.113554.1.2.2 (content octets 2A 86 48 86 F7 12 01 02 02)
and payload "foo". -/
theorem concrete_example_token_parses :
    parseExportedName [0x04, 0x01, 0x00, 0x0B, 0x06, 0x09, 0x2A, 0x86, 0x48, 0x86,
        0xF7, 0x12, 0x01, 0x02, 0x02, 0x00, 0x00, 0x00, 0x03, 0x66, 0x6F, 0x6F] =
      .ok false [0x2A, 0x86, 0x48, 0x86, 0xF7, 0x12, 0x01, 0x02, 0x02]
        [0x66, 0x6F, 0x6F] := by decide

/-- Concrete fixture: a registered mechanism whose import always fails. -/
def mechFail : Mech := ⟨[1], false, [[5]], true, fun _ _ => none, true⟩

/-- Concrete fixture: a registered mechanism whose import always yields handle 7. -/
def mechOk : Mech := ⟨[2], false, [[5]], true, fun _ _ => some 7, true⟩

/-- Concrete fixture: the Kerberos v5 mechanism OID content octets
(1.2.840.113554.1.2.2). -/
def krb5Oid : List Nat := [0x2A, 0x86, 0x48, 0x86, 0xF7, 0x12, 0x01, 0x02, 0x02]

/-- Concrete fixture: the 22-byte exported-name token of the specification. -/
def exportTok : List Nat := [0x04, 0x01, 0x00, 0x0B, 0x06, 0x09, 0x2A, 0x86, 0x48,
  0x86, 0xF7, 0x12, 0x01, 0x02, 0x02, 0x00, 0x00, 0x00, 0x03, 0x66, 0x6F, 0x6F]

/-- Concrete fixture: a registered mechanism under the Kerberos OID whose import
always yields handle 11. -/
def krb5Mech : Mech := ⟨krb5Oid, false, [], true, fun _ _ => some 11, true⟩

theorem generic_import_single_failure_witness :
    (gss_import_name_generic ⟨[mechFail, mechOk], true, true, true⟩ [9] (some [5])).result =
        .ok ⟨some [5], some [9], [(1, 7)]⟩ ∧
      (loopSuccesses [9] (some [5]) [mechFail, mechOk] 0).length + 1 =
        eligCount (some [5]) [mechFail, mechOk] :=
  generic_import_single_failure_tolerated ⟨[mechFail, mechOk], true, true, true⟩ [9]
    (some [5]) rfl rfl rfl
    (by
      intro m hm he
      simp only [List.mem_cons, List.not_mem_nil, or_false] at hm
      rcases hm with rfl | rfl <;> rfl)
    (by decide) (by decide)

theorem generic_import_all_fail_witness :
    (gss_import_name_generic ⟨[mechFail], true, true, true⟩ [9] (some [5])).result =
        .err .nameNotMN ∧
      (gss_import_name_generic ⟨[mechFail], true, true, true⟩ [9] (some [5])).alloc =
        (gss_import_name_generic ⟨[mechFail], true, true, true⟩ [9] (some [5])).freed :=
  generic_import_all_fail_name_not_mn_no_leak ⟨[mechFail], true, true, true⟩ [9] (some [5])
    rfl rfl rfl
    (by
      intro m hm he
      simp only [List.mem_cons, List.not_mem_nil, or_false] at hm
      rcases hm with rfl
      rfl)
    (by
      intro m hm he
      simp only [List.mem_cons, List.not_mem_nil, or_false] at hm
      rcases hm with rfl
      rfl)

theorem composite_no_length_enforcement_witness :
    parseExportedName (4 :: 2 :: 0 :: ([0x2A].length + 2) :: 6 :: [0x2A].length ::
        ([0x2A] ++ [0, 0, 0, 99, 7])) = .ok true [0x2A] [0, 0, 0, 99, 7] :=
  composite_no_length_enforcement [0x2A] [0, 0, 0, 99, 7] (by decide)

theorem noncomposite_strict_length_witness :
    parseExportedName (4 :: 1 :: 0 :: ([42].length + 2) :: 6 :: [42].length ::
        ([42] ++ [9, 9])) = .badName ∧
      parseExportedName (4 :: 1 :: 0 :: ([42].length + 2) :: 6 :: [42].length ::
        ([42] ++ (0 :: 0 :: 0 :: 2 :: [7, 8]))) =
        (if ([7, 8] : List Nat).length = (0 <<< 24) ||| (0 <<< 16) ||| (0 <<< 8) ||| 2
         then PResult.ok false [42] [7, 8] else .badName) :=
  ⟨(noncomposite_strict_length [42] (by decide)).1 [9, 9] (by decide),
    (noncomposite_strict_length [42] (by decide)).2 0 0 0 2 [7, 8]⟩

theorem export_import_gets_original_buffer_witness :
    (_gss_import_export_name ⟨[krb5Mech], true⟩ exportTok (some [5, 6])).importCall =
      some (0, exportTok, some [5, 6]) :=
  export_import_gets_original_buffer ⟨[krb5Mech], true⟩ exportTok (some [5, 6]) false
    krb5Oid [0x66, 0x6F, 0x6F] 0 krb5Mech (by decide) rfl rfl

theorem export_bad_mech_iff_witness :
    ((_gss_import_export_name ⟨[], true⟩ exportTok none).status = .badMech ↔
      (__gss_get_mechanism ([] : List Mech) 0 krb5Oid = none ∨
        ∃ i m, __gss_get_mechanism ([] : List Mech) 0 krb5Oid = some (i, m) ∧
          m.hasImportName = false)) :=
  export_bad_mech_iff ⟨[], true⟩ exportTok none false krb5Oid [0x66, 0x6F, 0x6F]
    (by decide)

theorem export_create_name_failure_releases_witness :
    _gss_import_export_name ⟨[krb5Mech], false⟩ exportTok none =
      ⟨.failure, none, some (0, exportTok, none), [(0, 11)]⟩ :=
  export_create_name_failure_releases ⟨[krb5Mech], false⟩ exportTok none false
    krb5Oid [0x66, 0x6F, 0x6F] 0 krb5Mech 11 (by decide) rfl rfl rfl rfl

end GssImportName
